import Mathlib

/-!
# Verification of the vk-playground runtime (GPU context and swapchain lifecycle)

This development shallowly embeds the runtime crate of the repository:
`src/runtime/src/vk_utils.rs` (instance/device bootstrap helpers) and
`src/runtime/src/lib.rs` (the `Vk` context, `AppContext`, swapchain
management and the frame loop).

Native Vulkan calls are effectful, so the embedding is trace-based: each
operation is a pure function parameterised by an environment that decides
the outcome of every native call (which calls fail, which physical devices
are enumerated, which image handles a swapchain yields), and it returns an
outcome together with the list of native resource events it performed
(`VkEvent`). Rust panics (`expect`/`panic!` in the source) are modelled as
the distinct outcome `Outcome.panicked`, different from a returned
`anyhow` error (`Outcome.err`).

Machine integers (`u32` scores) are modelled as `Nat` with explicit
reduction modulo `2 ^ 32` where the source performs `u32` arithmetic.
-/

/-- Physical device types, from `ash::vk::PhysicalDeviceType` as matched in
`select_physical_device` (`vk_utils.rs`): only `DISCRETE_GPU` and
`INTEGRATED_GPU` are distinguished; everything else falls into the wildcard
arm of the `match`. -/
inductive DeviceType where
  | discreteGpu
  | integratedGpu
  | virtualGpu
  | cpu
  | otherType
deriving DecidableEq, Repr

/-- The data `select_physical_device` queries about an enumerated physical
device: its properties (`device_type`, `limits.max_image_dimension2_d`) and
its enumerable device extension names. `handle` is the native
`vk::PhysicalDevice` handle, used only as identity. -/
structure DeviceInfo where
  handle : Nat
  deviceType : DeviceType
  maxImageDimension2D : Nat
  extensions : List String
deriving DecidableEq, Repr

/-- The score computed per device in `select_physical_device`
(`vk_utils.rs` lines 86-97): `1000` for a discrete GPU, `100` for an
integrated GPU, `0` otherwise, plus `limits.max_image_dimension2_d`.
The source accumulates into a `u32`, so the sum is reduced modulo `2 ^ 32`
(Rust release-mode wrapping semantics). -/
def deviceScore (d : DeviceInfo) : Nat :=
  ((match d.deviceType with
    | .discreteGpu => 1000
    | .integratedGpu => 100
    | _ => 0) + d.maxImageDimension2D) % (2 ^ 32)

/-- `BTreeMap::insert` on the sorted association list representing
`BTreeMap<u32, PhysicalDevice>`: keys kept strictly increasing, existing
key overwritten (`candidates.insert(score, physical_device)` in
`vk_utils.rs` line 99). -/
def btreeInsert (k : Nat) (v : DeviceInfo) :
    List (Nat × DeviceInfo) → List (Nat × DeviceInfo)
  | [] => [(k, v)]
  | (k', v') :: rest =>
    if k < k' then (k, v) :: (k', v') :: rest
    else if k = k' then (k, v) :: rest
    else (k', v') :: btreeInsert k v rest

/-- The `candidates` map of `select_physical_device`: a left fold of
`btreeInsert` over the enumerated devices in enumeration order. -/
def buildCandidates (devices : List DeviceInfo) : List (Nat × DeviceInfo) :=
  devices.foldl (fun acc d => btreeInsert (deviceScore d) d acc) []

/-- `candidates.last_entry()` followed by `.remove()`: the entry with the
maximal key of the `BTreeMap`, i.e. the last element of the sorted
association list. Returns the stored device, `none` when the map is empty. -/
def selectCandidate (devices : List DeviceInfo) : Option DeviceInfo :=
  (buildCandidates devices).getLast?.map (fun e => e.2)

/-- The errors produced by the embedded runtime (the source uses `anyhow`
errors with the quoted message strings; panics are a separate outcome). -/
inductive VkError where
  | instanceCreation      -- "failed to create instance"
  | noSuitableDevice      -- "suitable device should be found."
  | missingExtensions     -- "device is missing required extensions"
  | surfaceCreation
  | swapchainCreation     -- "failed to create swapchain"
  | getSwapchainImages
  | imageViewCreation     -- "failed to create image view"
  | appConfig             -- a fallible App getter returned Err
deriving DecidableEq, Repr

/-- The number of required extensions found in the device's extension set:
the `count` loop of `select_physical_device` (`vk_utils.rs` lines 121-127).
`actual.contains e` models membership in the `HashSet<String>` collected
from `enumerate_device_extension_properties`. -/
def extensionsSupportedCount (required : List String) (actual : List String) : Nat :=
  required.countP (fun e => actual.contains e)

/-- `select_physical_device` (`vk_utils.rs` lines 75-133): build the scored
candidate map, take the highest-scored entry (error
`"suitable device should be found."` when there is none, i.e. when zero
devices were enumerated), then bail with
`"device is missing required extensions"` unless the count of supported
required extensions equals the length of the required list. No fallback to
any other candidate. -/
def select_physical_device (devices : List DeviceInfo) (required : List String) :
    Except VkError DeviceInfo :=
  match (buildCandidates devices).getLast? with
  | none => .error .noSuitableDevice
  | some e =>
    if extensionsSupportedCount required e.2.extensions = required.length
    then .ok e.2
    else .error .missingExtensions

/-- `get_required_device_extensions` (`lib.rs` lines 253-263): the
portability subset extension, `Swapchain::name()` and
`DynamicRendering::name()`. -/
def get_required_device_extensions : List String :=
  ["VK_KHR_portability_subset", "VK_KHR_swapchain", "VK_KHR_dynamic_rendering"]

/-- Native resource events. Each constructor records one native create or
destroy call (or, for `dropPhysicalDevice`/`dropEntry`, a plain Rust drop
performing no native call). `createImageView v img` records that view
handle `v` was created from image handle `img`. -/
inductive VkEvent where
  | createInstance (h : Nat)
  | destroyInstance (h : Nat)
  | createDevice (h : Nat)
  | destroyDevice (h : Nat)
  | dropPhysicalDevice
  | dropEntry
  | createSurface (h : Nat)
  | destroySurface (h : Nat)
  | createSwapchain (h : Nat)
  | destroySwapchain (h : Nat)
  | createImageView (v : Nat) (img : Nat)
  | destroyImageView (v : Nat)
deriving DecidableEq, Repr

/-- Outcome of an embedded operation: a returned value, a returned
`anyhow` error, or a Rust panic (process abort) with the panic message. -/
inductive Outcome (α : Type) where
  | ok (a : α)
  | err (e : VkError)
  | panicked (msg : String)
deriving DecidableEq, Repr

/-- A queue family's relevant flags, from
`get_physical_device_queue_family_properties`: whether `queue_flags`
contains `GRAPHICS` and `COMPUTE`. -/
structure QueueFamily where
  graphics : Bool
  compute : Bool
deriving DecidableEq, Repr

/-- `find_queue_family_indices` (`vk_utils.rs` lines 135-151): first index
whose flags contain `GRAPHICS | COMPUTE`; the source panics when none
qualifies, modelled by the caller treating `none` as a panic. -/
def find_queue_family_indices (families : List QueueFamily) : Option Nat :=
  (families.findIdx? (fun f => f.graphics && f.compute))

/-- `create_device` (`vk_utils.rs` lines 153-185): the native
`vkCreateDevice` outcome is `nativeOk`; on success the device handle `h`
is created, on native failure the source calls
`.expect("create_device successful.")`, i.e. it PANICS instead of
returning the error through its `anyhow::Result` type. -/
def create_device (nativeOk : Bool) (h : Nat) : Outcome Nat × List VkEvent :=
  if nativeOk then (.ok h, [VkEvent.createDevice h])
  else (.panicked "create_device successful.", [])

/-- Environment deciding every native call made by `Vk::new`:
whether `create_instance` succeeds, whether `enumerate_physical_devices`
succeeds (its failure is an `.expect` panic in the source), the devices it
yields, the queue families of the selected device, and whether the native
`vkCreateDevice` call succeeds. -/
structure VkNewEnv where
  instanceOk : Bool
  enumerateOk : Bool
  devices : List DeviceInfo
  queueFamiliesOf : DeviceInfo → List QueueFamily
  deviceOk : Bool

/-- The `Vk` context (`lib.rs` lines 44-53) restricted to the fields that
carry native resources or selection results. Handles: `instanceH` and
`deviceH` are the native handles created by `Vk::new`. -/
structure Vk where
  instanceH : Nat
  physical_device : DeviceInfo
  queue_family_idx : Nat
  deviceH : Nat
deriving DecidableEq, Repr

/-- `Vk::new` (`lib.rs` lines 56-81). Steps in source order:
`create_entry` (never fails, no native resource), `create_instance`,
`select_physical_device`, `find_queue_family_indices` (panics when no
family qualifies), `create_device` (panics on native failure, see
`create_device`). Note that on a `select_physical_device` error the `?`
operator returns the error while the already created instance is merely
dropped — `ash::Instance` has no drop glue performing a native call, so no
`destroyInstance` event is emitted on any error path. Handles: the
instance is 0, the device is 1. -/
def vkNew (env : VkNewEnv) : Outcome Vk × List VkEvent :=
  if !env.instanceOk then (.err .instanceCreation, [])
  else
    let tr := [VkEvent.createInstance 0]
    if !env.enumerateOk then (.panicked "physical devices should be available.", tr)
    else
      match select_physical_device env.devices get_required_device_extensions with
      | .error e => (.err e, tr)
      | .ok pd =>
        match find_queue_family_indices (env.queueFamiliesOf pd) with
        | none =>
          (.panicked "failed to find queue family that supports GRAPHICS, COMPUTE and PRESENT",
           tr)
        | some qfi =>
          match create_device env.deviceOk 1 with
          | (.ok dh, dtr) =>
            (.ok { instanceH := 0, physical_device := pd,
                   queue_family_idx := qfi, deviceH := dh },
             tr ++ dtr)
          | (.err e, dtr) => (.err e, tr ++ dtr)
          | (.panicked m, dtr) => (.panicked m, tr ++ dtr)

/-- `SwapchainHolder` (`lib.rs` lines 24-28): the swapchain handle, the
image handles obtained from `get_swapchain_images` (borrowed, never
destroyed individually) and the image view handles (owned). -/
structure SwapchainHolder where
  swapchain : Nat
  images : List Nat
  image_views : List Nat
deriving DecidableEq, Repr

/-- `SwapchainHolder::destroy` (`lib.rs` lines 31-39): destroy every image
view in order, then destroy the swapchain. -/
def SwapchainHolder.destroy (h : SwapchainHolder) : List VkEvent :=
  h.image_views.map VkEvent.destroyImageView ++ [VkEvent.destroySwapchain h.swapchain]

/-- `Drop for Vk` (`lib.rs` lines 116-125): `destroy_device`, then
`ManuallyDrop::drop` of the physical device handle (no native call), then
`destroy_instance`, then `ManuallyDrop::drop` of the entry. -/
def vkDrop (vk : Vk) : List VkEvent :=
  [VkEvent.destroyDevice vk.deviceH, VkEvent.dropPhysicalDevice,
   VkEvent.destroyInstance vk.instanceH, VkEvent.dropEntry]

/-- `AppContext` (`lib.rs` lines 127-133) restricted to the native
resources: the surface handle, the `Vk` context and the optional current
swapchain bundle. -/
structure AppContext where
  main_surface : Nat
  vk : Vk
  swapchain : Option SwapchainHolder
deriving DecidableEq, Repr

/-- `Drop for AppContext` (`lib.rs` lines 169-178) followed by the
implicit field drops: destroy the current bundle if present, destroy the
surface, then the `vk` field's own `Drop` runs (`vkDrop`). -/
def appContextDrop (ctx : AppContext) : List VkEvent :=
  (match ctx.swapchain with
   | some h => h.destroy
   | none => []) ++ [VkEvent.destroySurface ctx.main_surface] ++ vkDrop ctx.vk

/-- Environment deciding the native calls of `create_swapchain`: whether
`vkCreateSwapchainKHR` succeeds, the image handles `get_swapchain_images`
yields (`none` = that call fails), and which view creations succeed
(indexed by position in the image list). -/
structure SwapchainEnv where
  swapchainOk : Bool
  imagesResult : Option (List Nat)
  viewOk : Nat → Bool

/-- The image-view creation loop of `create_swapchain` (`lib.rs` lines
298-320): one view per image, in image order; fresh view handles are drawn
from the counter `c`; on the first failing view creation the loop stops
with the error, the views already created remaining live (their create
events stay in the trace, no destroy is emitted). `idx` is the position of
the current image. -/
def createImageViews (viewOk : Nat → Bool) (idx : Nat) (c : Nat) :
    List Nat → Outcome (List Nat) × List VkEvent × Nat
  | [] => (.ok [], [], c)
  | img :: rest =>
    if viewOk idx then
      match createImageViews viewOk (idx + 1) (c + 1) rest with
      | (.ok vs, tr, c') => (.ok (c :: vs), VkEvent.createImageView c img :: tr, c')
      | (.err e, tr, c') => (.err e, VkEvent.createImageView c img :: tr, c')
      | (.panicked m, tr, c') => (.panicked m, VkEvent.createImageView c img :: tr, c')
    else (.err .imageViewCreation, [], c)

/-- `create_swapchain` (`lib.rs` lines 265-326): create the swapchain
(error "failed to create swapchain" on native failure), retrieve the image
handles, then create one image view per image via `createImageViews`.
Fresh native handles are drawn from the counter `c`. -/
def create_swapchain (env : SwapchainEnv) (c : Nat) :
    Outcome SwapchainHolder × List VkEvent × Nat :=
  if !env.swapchainOk then (.err .swapchainCreation, [], c)
  else
    match env.imagesResult with
    | none => (.err .getSwapchainImages, [VkEvent.createSwapchain c], c + 1)
    | some images =>
      match createImageViews env.viewOk 0 (c + 1) images with
      | (.ok vs, tr, c') =>
        (.ok ⟨c, images, vs⟩, VkEvent.createSwapchain c :: tr, c')
      | (.err e, tr, c') => (.err e, VkEvent.createSwapchain c :: tr, c')
      | (.panicked m, tr, c') => (.panicked m, VkEvent.createSwapchain c :: tr, c')

/-- The three fallible `App` getters solicited by `recreate_swapchain`
(`get_swapchain_format`, `get_swapchain_color_space`,
`get_swapchain_min_image_count`): whether each returns `Ok`. They are
evaluated, in that order, after the old bundle is destroyed and before
`create_swapchain` is entered. -/
structure AppCfg where
  formatOk : Bool
  colorSpaceOk : Bool
  minImageCountOk : Bool

/-- `AppContext::recreate_swapchain` (`lib.rs` lines 144-166): take the
old bundle out of `self.swapchain` (leaving `None`) and destroy it if
present; then evaluate the app getters and call `create_swapchain`; on
success store the new bundle, on error propagate with `self.swapchain`
still `None`. Returns the outcome, the updated context, the event trace
and the updated handle counter. -/
def recreate_swapchain (cfg : AppCfg) (env : SwapchainEnv) (ctx : AppContext) (c : Nat) :
    Outcome Unit × AppContext × List VkEvent × Nat :=
  let destroyTr : List VkEvent :=
    match ctx.swapchain with
    | some old => old.destroy
    | none => []
  let ctx1 : AppContext := { ctx with swapchain := none }
  if !(cfg.formatOk && cfg.colorSpaceOk && cfg.minImageCountOk)
  then (.err .appConfig, ctx1, destroyTr, c)
  else
    match create_swapchain env c with
    | (.ok holder, tr, c') =>
      (.ok (), { ctx1 with swapchain := some holder }, destroyTr ++ tr, c')
    | (.err e, tr, c') => (.err e, ctx1, destroyTr ++ tr, c')
    | (.panicked m, tr, c') => (.panicked m, ctx1, destroyTr ++ tr, c')

/-- GLFW key, from `glfw::Key` as matched in `run`: only `Escape` is
distinguished. -/
inductive GKey where
  | escape
  | otherKey (code : Nat)
deriving DecidableEq, Repr

/-- GLFW key action, from `glfw::Action`. -/
inductive GAction where
  | press
  | release
  | keyRepeat
deriving DecidableEq, Repr

/-- Window events drained by `run`'s event loop, from
`glfw::WindowEvent`: key events (key, scancode, action, modifiers),
framebuffer-resize events, and all other event kinds. -/
inductive WEvent where
  | key (k : GKey) (scancode : Int) (a : GAction) (mods : Nat)
  | framebufferSize (w : Int) (h : Int)
  | otherEvent (code : Nat)
deriving DecidableEq, Repr

/-- The pattern `WindowEvent::Key(Key::Escape, _, Action::Press, _)` of
`run` (`lib.rs` line 235). -/
def isEscapePress : WEvent → Bool
  | .key .escape _ .press _ => true
  | _ => false

/-- One tick's event-processing loop of `run` (`lib.rs` lines 233-247),
for a drained event queue: returns (close flag set, events dispatched to
`app.event` in order, number of `recreate_swapchain` calls). If auto-close
is enabled and the event is an Escape press: set the close flag and
`break` (remaining events unprocessed). Else a framebuffer-resize event
triggers `recreate_swapchain` and `continue` (not dispatched). Every other
event is dispatched to the application's event callback. -/
def processEvents (auto : Bool) : List WEvent → Bool × List WEvent × Nat
  | [] => (false, [], 0)
  | e :: rest =>
    if auto && isEscapePress e then (true, [], 0)
    else
      match e with
      | .framebufferSize _ _ =>
        let r := processEvents auto rest
        (r.1, r.2.1, r.2.2 + 1)
      | _ =>
        let r := processEvents auto rest
        (r.1, e :: r.2.1, r.2.2)

/-- The `while !ctx.main_window.should_close()` loop of `run` (`lib.rs`
lines 230-248), driven by a finite schedule of per-tick event queues (the
queue `poll_events`/`flush_messages` yields on each iteration; an empty
schedule models the window being closed externally). Each iteration runs
the per-frame callback then processes that tick's events; when the close
flag was set the loop terminates at the top of the next iteration.
Returns (number of frame iterations executed, all events dispatched to
`app.event` in order). -/
def runLoop (auto : Bool) : List (List WEvent) → Nat × List WEvent
  | [] => (0, [])
  | q :: qs =>
    let r := processEvents auto q
    if r.1 then (1, r.2.1)
    else
      let rest := runLoop auto qs
      (rest.1 + 1, r.2.1 ++ rest.2)

example :
    processEvents true
      [WEvent.otherEvent 7, WEvent.key .escape 1 .press 0, WEvent.otherEvent 9] =
      (true, [WEvent.otherEvent 7], 0) := by decide

example :
    processEvents false
      [WEvent.key .escape 1 .press 0, WEvent.framebufferSize 800 600] =
      (false, [WEvent.key .escape 1 .press 0], 1) := by decide

example :
    runLoop true
      [[WEvent.otherEvent 7], [WEvent.key .escape 1 .press 0], [WEvent.otherEvent 9]] =
      (2, [WEvent.otherEvent 7]) := by decide

example :
    selectCandidate
      [⟨1, .integratedGpu, 50, []⟩, ⟨2, .discreteGpu, 10, []⟩,
       ⟨3, .otherType, 1010, []⟩] = some ⟨3, .otherType, 1010, []⟩ := by decide

example :
    selectCandidate
      [⟨1, .discreteGpu, 10, []⟩, ⟨2, .discreteGpu, 10, []⟩] =
      some ⟨2, .discreteGpu, 10, []⟩ := by decide

example :
    select_physical_device [⟨1, .discreteGpu, 10, ["VK_KHR_swapchain"]⟩]
      get_required_device_extensions = .error .missingExtensions := rfl

example :
    select_physical_device [] get_required_device_extensions =
      .error .noSuitableDevice := rfl

example :
    select_physical_device
      [⟨1, .discreteGpu, 10, get_required_device_extensions⟩]
      get_required_device_extensions =
      .ok ⟨1, .discreteGpu, 10, get_required_device_extensions⟩ := rfl

/-! ## Helper lemmas about the candidate map -/

/-- The score formula as the specification states it, without the `u32`
reduction: `1000` for discrete, `100` for integrated, `0` otherwise, plus
the maximum 2D image dimension. -/
def specScore (d : DeviceInfo) : Nat :=
  (match d.deviceType with
    | .discreteGpu => 1000
    | .integratedGpu => 100
    | _ => 0) + d.maxImageDimension2D

theorem deviceScore_eq_specScore (d : DeviceInfo) (h : specScore d < 2 ^ 32) :
    deviceScore d = specScore d := by
  unfold deviceScore specScore at *
  exact Nat.mod_eq_of_lt h

theorem btreeInsert_ne_nil (k : Nat) (v : DeviceInfo) (l : List (Nat × DeviceInfo)) :
    btreeInsert k v l ≠ [] := by
  cases l with
  | nil => simp [btreeInsert]
  | cons e rest =>
    obtain ⟨k', v'⟩ := e
    unfold btreeInsert
    split
    · simp
    · split <;> simp

theorem btreeInsert_head_lt (k : Nat) (v : DeviceInfo) (k' : Nat) (v' : DeviceInfo)
    (rest : List (Nat × DeviceInfo)) (h : k' < k) :
    btreeInsert k v ((k', v') :: rest) = (k', v') :: btreeInsert k v rest := by
  simp only [btreeInsert]
  rw [if_neg (by omega), if_neg (by omega)]

theorem btreeInsert_head_eq (k : Nat) (v : DeviceInfo) (v' : DeviceInfo)
    (rest : List (Nat × DeviceInfo)) :
    btreeInsert k v ((k, v') :: rest) = (k, v) :: rest := by
  simp [btreeInsert]

theorem btreeInsert_head_gt (k : Nat) (v : DeviceInfo) (k' : Nat) (v' : DeviceInfo)
    (rest : List (Nat × DeviceInfo)) (h : k < k') :
    btreeInsert k v ((k', v') :: rest) = (k, v) :: (k', v') :: rest := by
  simp only [btreeInsert]
  rw [if_pos h]

theorem mem_btreeInsert (k : Nat) (v : DeviceInfo) (l : List (Nat × DeviceInfo))
    (hs : l.Pairwise (fun a b => a.1 < b.1)) (e : Nat × DeviceInfo) :
    e ∈ btreeInsert k v l ↔ e = (k, v) ∨ (e ∈ l ∧ e.1 ≠ k) := by
  induction l with
  | nil => simp [btreeInsert]
  | cons hd rest ih =>
    obtain ⟨k', v'⟩ := hd
    rw [List.pairwise_cons] at hs
    obtain ⟨hlt, hrest⟩ := hs
    have hlt' : ∀ x ∈ rest, k' < x.1 := fun x hx => hlt x hx
    rcases Nat.lt_trichotomy k k' with h1 | h1 | h1
    · rw [btreeInsert_head_gt k v k' v' rest h1]
      simp only [List.mem_cons]
      constructor
      · rintro (rfl | rfl | h)
        · exact Or.inl rfl
        · refine Or.inr ⟨Or.inl rfl, ?_⟩
          have hfst : (k', v').1 = k' := rfl
          omega
        · refine Or.inr ⟨Or.inr h, ?_⟩
          have := hlt' _ h
          omega
      · rintro (rfl | ⟨h, _⟩)
        · exact Or.inl rfl
        · exact Or.inr h
    · subst h1
      rw [btreeInsert_head_eq k v v' rest]
      simp only [List.mem_cons]
      constructor
      · rintro (rfl | h)
        · exact Or.inl rfl
        · refine Or.inr ⟨Or.inr h, ?_⟩
          have := hlt' _ h
          omega
      · rintro (rfl | ⟨h, hne⟩)
        · exact Or.inl rfl
        · rcases h with rfl | h
          · exact absurd rfl hne
          · exact Or.inr h
    · rw [btreeInsert_head_lt k v k' v' rest h1]
      simp only [List.mem_cons]
      constructor
      · rintro (rfl | h)
        · refine Or.inr ⟨Or.inl rfl, ?_⟩
          have hfst : (k', v').1 = k' := rfl
          omega
        · rcases (ih hrest).mp h with rfl | ⟨hm, hne⟩
          · exact Or.inl rfl
          · exact Or.inr ⟨Or.inr hm, hne⟩
      · rintro (rfl | ⟨h, hne⟩)
        · exact Or.inr ((ih hrest).mpr (Or.inl rfl))
        · rcases h with rfl | h
          · exact Or.inl rfl
          · exact Or.inr ((ih hrest).mpr (Or.inr ⟨h, hne⟩))

theorem btreeInsert_pairwise (k : Nat) (v : DeviceInfo) (l : List (Nat × DeviceInfo))
    (hs : l.Pairwise (fun a b => a.1 < b.1)) :
    (btreeInsert k v l).Pairwise (fun a b => a.1 < b.1) := by
  induction l with
  | nil => simp [btreeInsert]
  | cons hd rest ih =>
    obtain ⟨k', v'⟩ := hd
    rw [List.pairwise_cons] at hs
    obtain ⟨hlt, hrest⟩ := hs
    have hlt' : ∀ x ∈ rest, k' < x.1 := fun x hx => hlt x hx
    rcases Nat.lt_trichotomy k k' with h1 | h1 | h1
    · rw [btreeInsert_head_gt k v k' v' rest h1]
      rw [List.pairwise_cons]
      refine ⟨?_, List.pairwise_cons.mpr ⟨hlt, hrest⟩⟩
      intro x hx
      rcases List.mem_cons.mp hx with rfl | h
      · exact h1
      · have := hlt' _ h
        omega
    · subst h1
      rw [btreeInsert_head_eq k v v' rest]
      rw [List.pairwise_cons]
      exact ⟨fun x hx => hlt' x hx, hrest⟩
    · rw [btreeInsert_head_lt k v k' v' rest h1]
      rw [List.pairwise_cons]
      refine ⟨?_, ih hrest⟩
      intro x hx
      rcases (mem_btreeInsert k v rest hrest x).mp hx with rfl | ⟨hm, _⟩
      · exact h1
      · exact hlt' _ hm

theorem buildCandidates_concat (ds : List DeviceInfo) (d : DeviceInfo) :
    buildCandidates (ds ++ [d]) = btreeInsert (deviceScore d) d (buildCandidates ds) := by
  simp [buildCandidates, List.foldl_append]

theorem buildCandidates_pairwise (devices : List DeviceInfo) :
    (buildCandidates devices).Pairwise (fun a b => a.1 < b.1) := by
  induction devices using List.reverseRecOn with
  | nil => simp [buildCandidates]
  | append_singleton ds d ih =>
    rw [buildCandidates_concat]
    exact btreeInsert_pairwise _ _ _ ih

theorem mem_buildCandidates (devices : List DeviceInfo) (e : Nat × DeviceInfo) :
    e ∈ buildCandidates devices ↔
      e.1 = deviceScore e.2 ∧
        (devices.filter (fun d => deviceScore d = e.1)).getLast? = some e.2 := by
  induction devices using List.reverseRecOn with
  | nil => simp [buildCandidates]
  | append_singleton ds d ih =>
    rw [buildCandidates_concat,
      mem_btreeInsert _ _ _ (buildCandidates_pairwise ds) e, List.filter_append]
    by_cases hsc : deviceScore d = e.1
    · have hfilter : List.filter (fun x => decide (deviceScore x = e.1)) [d] = [d] := by
        simp [hsc]
      rw [hfilter, List.getLast?_concat]
      constructor
      · rintro (rfl | ⟨_, hne⟩)
        · exact ⟨rfl, rfl⟩
        · exact absurd hsc.symm hne
      · rintro ⟨h1, h2⟩
        left
        obtain rfl := Option.some.inj h2
        rw [Prod.ext_iff]
        exact ⟨h1, rfl⟩
    · have hfilter : List.filter (fun x => decide (deviceScore x = e.1)) [d] = [] := by
        simp [hsc]
      rw [hfilter, List.append_nil]
      constructor
      · rintro (rfl | ⟨hm, hne⟩)
        · exact absurd rfl hsc
        · exact ih.mp hm
      · rintro ⟨h1, h2⟩
        right
        refine ⟨ih.mpr ⟨h1, h2⟩, ?_⟩
        intro hkey
        exact hsc hkey.symm

theorem getLast?_key_max (l : List (Nat × DeviceInfo))
    (hs : l.Pairwise (fun a b => a.1 < b.1)) (x : Nat × DeviceInfo)
    (hx : l.getLast? = some x) : ∀ e ∈ l, e.1 ≤ x.1 := by
  induction l with
  | nil => simp at hx
  | cons hd rest ih =>
    rw [List.pairwise_cons] at hs
    obtain ⟨hlt, hrest⟩ := hs
    intro e he
    cases rest with
    | nil =>
      simp at hx
      rcases List.mem_cons.mp he with rfl | h
      · rw [hx]
      · simp at h
    | cons hd2 rest2 =>
      rw [List.getLast?_cons_cons] at hx
      have hx_mem : x ∈ hd2 :: rest2 := List.mem_of_mem_getLast? hx
      rcases List.mem_cons.mp he with rfl | h
      · have := hlt _ hx_mem
        omega
      · exact ih hrest hx e h

theorem buildCandidates_ne_nil (devices : List DeviceInfo) (h : devices ≠ []) :
    buildCandidates devices ≠ [] := by
  induction devices using List.reverseRecOn with
  | nil => exact absurd rfl h
  | append_singleton ds d ih =>
    rw [buildCandidates_concat]
    exact btreeInsert_ne_nil _ _ _

theorem score_mem_buildCandidates (devices : List DeviceInfo) (d : DeviceInfo)
    (h : d ∈ devices) : ∃ v, (deviceScore d, v) ∈ buildCandidates devices := by
  have hfilter_ne : devices.filter (fun x => decide (deviceScore x = deviceScore d)) ≠ [] := by
    intro hnil
    have : d ∈ devices.filter (fun x => decide (deviceScore x = deviceScore d)) := by
      rw [List.mem_filter]
      exact ⟨h, by simp⟩
    rw [hnil] at this
    simp at this
  obtain ⟨v, hv⟩ := Option.ne_none_iff_exists'.mp
    (mt List.getLast?_eq_none_iff.mp hfilter_ne)
  refine ⟨v, ?_⟩
  rw [mem_buildCandidates]
  have hv_mem := List.mem_of_mem_getLast? hv
  rw [List.mem_filter] at hv_mem
  have hscore : deviceScore v = deviceScore d := by
    have := hv_mem.2
    simpa using this
  exact ⟨hscore.symm, hv⟩

/-- C4: for every non-empty enumeration with scores in `u32` range (the
score formula `specScore` does not overflow), `select_physical_device`'s
candidate pick has the maximum score, it is the last enumerated device
among those attaining that score, a discrete-GPU device never loses to an
integrated-GPU device of equal or lesser maximum 2D image dimension, and a
successful `select_physical_device` returns exactly this pick. -/
theorem select_physical_device_max_score (devices : List DeviceInfo)
    (hne : devices ≠ [])
    (h32 : ∀ d ∈ devices, specScore d < 2 ^ 32) :
    ∃ d, selectCandidate devices = some d ∧ d ∈ devices ∧
      (∀ x ∈ devices, specScore x ≤ specScore d) ∧
      (devices.filter (fun x => specScore x = specScore d)).getLast? = some d ∧
      (∀ dd ∈ devices, dd.deviceType = .discreteGpu →
        ∀ di ∈ devices, di.deviceType = .integratedGpu →
          di.maxImageDimension2D ≤ dd.maxImageDimension2D → d ≠ di) ∧
      (∀ req d', select_physical_device devices req = .ok d' → d' = d) := by
  have hbc_ne : buildCandidates devices ≠ [] := buildCandidates_ne_nil devices hne
  obtain ⟨e, he⟩ : ∃ e, (buildCandidates devices).getLast? = some e := by
    cases hgl : (buildCandidates devices).getLast? with
    | none => exact absurd (List.getLast?_eq_none_iff.mp hgl) hbc_ne
    | some e => exact ⟨e, rfl⟩
  have he_mem : e ∈ buildCandidates devices := List.mem_of_mem_getLast? he
  obtain ⟨hkey, hlast⟩ := (mem_buildCandidates devices e).mp he_mem
  have hd_mem : e.2 ∈ devices := by
    have := List.mem_of_mem_getLast? hlast
    exact (List.mem_filter.mp this).1
  have hspec : ∀ x ∈ devices, deviceScore x = specScore x := fun x hx =>
    deviceScore_eq_specScore x (h32 x hx)
  have hmax : ∀ x ∈ devices, specScore x ≤ specScore e.2 := by
    intro x hx
    obtain ⟨v, hv⟩ := score_mem_buildCandidates devices x hx
    have hle := getLast?_key_max (buildCandidates devices)
      (buildCandidates_pairwise devices) e he (deviceScore x, v) hv
    simp only at hle
    rw [hspec x hx, hspec e.2 hd_mem] at *
    omega
  refine ⟨e.2, ?_, hd_mem, hmax, ?_, ?_, ?_⟩
  · simp [selectCandidate, he]
  · have hfe : devices.filter (fun x => decide (specScore x = specScore e.2)) =
        devices.filter (fun x => decide (deviceScore x = e.1)) := by
      apply List.filter_congr
      intro x hx
      rw [hspec x hx, hkey, hspec e.2 hd_mem]
    rw [hfe]
    exact hlast
  · intro dd hdd hddT di hdi hdiT hdim heq
    have hscore_dd : specScore dd = 1000 + dd.maxImageDimension2D := by
      unfold specScore
      rw [hddT]
    have hscore_di : specScore di = 100 + di.maxImageDimension2D := by
      unfold specScore
      rw [hdiT]
    have h1 := hmax dd hdd
    rw [heq] at *
    omega
  · intro req d' heq
    simp only [select_physical_device, he] at heq
    by_cases hc : extensionsSupportedCount req e.2.extensions = req.length
    · rw [if_pos hc] at heq
      cases heq
      rfl
    · rw [if_neg hc] at heq
      cases heq

/-- Concrete device list used by witnesses: an integrated GPU enumerated
first, then a discrete GPU of smaller maximum image dimension. -/
def witnessDevices : List DeviceInfo :=
  [⟨1, .integratedGpu, 50, []⟩, ⟨2, .discreteGpu, 10, []⟩]

theorem select_physical_device_max_score_witness :
    ∃ d, selectCandidate witnessDevices = some d ∧ d ∈ witnessDevices ∧
      (∀ x ∈ witnessDevices, specScore x ≤ specScore d) ∧
      (witnessDevices.filter (fun x => specScore x = specScore d)).getLast? = some d ∧
      (∀ dd ∈ witnessDevices, dd.deviceType = .discreteGpu →
        ∀ di ∈ witnessDevices, di.deviceType = .integratedGpu →
          di.maxImageDimension2D ≤ dd.maxImageDimension2D → d ≠ di) ∧
      (∀ req d', select_physical_device witnessDevices req = .ok d' → d' = d) :=
  select_physical_device_max_score witnessDevices (by decide) (by decide)

/-- C5: `select_physical_device` fails with the missing-extensions error
exactly when the highest-scored candidate lacks at least one required
extension; on success it returns that candidate (so it never falls back to
a lower-scored candidate), and that candidate supports every required
extension. -/
theorem select_physical_device_missing_ext_iff (devices : List DeviceInfo)
    (req : List String) :
    (select_physical_device devices req = .error .missingExtensions ↔
      ∃ d, selectCandidate devices = some d ∧ ∃ ext ∈ req, ext ∉ d.extensions) ∧
    (∀ d', select_physical_device devices req = .ok d' →
      selectCandidate devices = some d' ∧ ∀ ext ∈ req, ext ∈ d'.extensions) := by
  cases he : (buildCandidates devices).getLast? with
  | none =>
    constructor
    · simp [select_physical_device, selectCandidate, he]
    · intro d' heq
      simp [select_physical_device, he] at heq
  | some e =>
    have hiff : extensionsSupportedCount req e.2.extensions = req.length ↔
        ∀ ext ∈ req, ext ∈ e.2.extensions := by
      unfold extensionsSupportedCount
      rw [List.countP_eq_length]
      constructor
      · intro h ext hext
        exact List.elem_iff.mp (h ext hext)
      · intro h ext hext
        exact List.elem_iff.mpr (h ext hext)
    constructor
    · constructor
      · intro heq
        refine ⟨e.2, by simp [selectCandidate, he], ?_⟩
        by_cases hc : extensionsSupportedCount req e.2.extensions = req.length
        · simp [select_physical_device, he, hc] at heq
        · have hnall := (hiff.not).mp hc
          push_neg at hnall
          exact hnall
      · rintro ⟨d, hd, ext, hext, hnotin⟩
        simp only [selectCandidate, he, Option.map_some'] at hd
        obtain hd2 := Option.some.inj hd
        subst hd2
        have hc : ¬extensionsSupportedCount req e.2.extensions = req.length := by
          intro hc
          exact hnotin (hiff.mp hc ext hext)
        simp [select_physical_device, he, hc]
    · intro d' heq
      simp only [select_physical_device, he] at heq
      by_cases hc : extensionsSupportedCount req e.2.extensions = req.length
      · rw [if_pos hc] at heq
        cases heq
        exact ⟨by simp [selectCandidate, he], hiff.mp hc⟩
      · rw [if_neg hc] at heq
        cases heq

theorem select_physical_device_missing_ext_iff_witness :
    select_physical_device [⟨1, .discreteGpu, 10, ["VK_KHR_swapchain"]⟩]
      get_required_device_extensions = .error .missingExtensions :=
  (select_physical_device_missing_ext_iff
    [⟨1, .discreteGpu, 10, ["VK_KHR_swapchain"]⟩] get_required_device_extensions).1.mpr
    ⟨⟨1, .discreteGpu, 10, ["VK_KHR_swapchain"]⟩, by decide,
      "VK_KHR_portability_subset", by decide, by decide⟩

/-! ## C2: teardown order -/

/-- C2: dropping an `AppContext` destroys the current bundle first (each
image view, then the swapchain), then the surface, then the `Vk` context
tears down: logical device destroyed, physical-device handle dropped with
no native destroy call, instance destroyed, entry dropped — each exactly
once, in exactly that order (the trace is exactly this sequence of
events); when no bundle is present the same tail runs without any
bundle-destroy events. -/
theorem appContextDrop_order (surface : Nat) (vk : Vk) (holder : SwapchainHolder) :
    appContextDrop ⟨surface, vk, some holder⟩ =
      holder.image_views.map VkEvent.destroyImageView ++
        [VkEvent.destroySwapchain holder.swapchain,
         VkEvent.destroySurface surface,
         VkEvent.destroyDevice vk.deviceH,
         VkEvent.dropPhysicalDevice,
         VkEvent.destroyInstance vk.instanceH,
         VkEvent.dropEntry] ∧
    appContextDrop ⟨surface, vk, none⟩ =
      [VkEvent.destroySurface surface,
       VkEvent.destroyDevice vk.deviceH,
       VkEvent.dropPhysicalDevice,
       VkEvent.destroyInstance vk.instanceH,
       VkEvent.dropEntry] ∧
    (appContextDrop ⟨surface, vk, some holder⟩).count
        (VkEvent.destroySwapchain holder.swapchain) = 1 ∧
    (appContextDrop ⟨surface, vk, some holder⟩).count
        (VkEvent.destroySurface surface) = 1 ∧
    (appContextDrop ⟨surface, vk, some holder⟩).count
        (VkEvent.destroyDevice vk.deviceH) = 1 ∧
    (appContextDrop ⟨surface, vk, some holder⟩).count
        (VkEvent.destroyInstance vk.instanceH) = 1 ∧
    (appContextDrop ⟨surface, vk, some holder⟩).count VkEvent.dropPhysicalDevice = 1 ∧
    (appContextDrop ⟨surface, vk, some holder⟩).count VkEvent.dropEntry = 1 := by
  have htrace : appContextDrop ⟨surface, vk, some holder⟩ =
      holder.image_views.map VkEvent.destroyImageView ++
        [VkEvent.destroySwapchain holder.swapchain,
         VkEvent.destroySurface surface,
         VkEvent.destroyDevice vk.deviceH,
         VkEvent.dropPhysicalDevice,
         VkEvent.destroyInstance vk.instanceH,
         VkEvent.dropEntry] := by
    simp [appContextDrop, SwapchainHolder.destroy, vkDrop]
  have hzero : ∀ x : VkEvent, (∀ v, x ≠ VkEvent.destroyImageView v) →
      (holder.image_views.map VkEvent.destroyImageView).count x = 0 := by
    intro x hx
    rw [List.count_eq_zero]
    intro hmem
    obtain ⟨v, _, hv⟩ := List.mem_map.mp hmem
    exact hx v hv.symm
  refine ⟨htrace, rfl, ?_, ?_, ?_, ?_, ?_, ?_⟩ <;>
    rw [htrace, List.count_append, hzero _ (by intro v h; cases h)] <;>
    simp [List.count_cons]

/-! ## C1: Vk::new error behaviour -/

/-- A bootstrap environment in which instance creation succeeds and
physical-device selection then fails (zero devices enumerated). -/
def vkNewFailSelectEnv : VkNewEnv :=
  { instanceOk := true, enumerateOk := true, devices := [],
    queueFamiliesOf := fun _ => [], deviceOk := true }

/-- C1 counterexample: with instance creation succeeding and
physical-device selection failing, `Vk::new` propagates the error but the
native instance created by the earlier step is NOT destroyed before the
error is returned — the trace holds its create event and no
`destroyInstance` event, refuting the all-or-nothing claim. -/
theorem vkNew_retains_instance_on_selection_failure :
    vkNew vkNewFailSelectEnv = (.err .noSuitableDevice, [VkEvent.createInstance 0]) ∧
      VkEvent.destroyInstance 0 ∉ (vkNew vkNewFailSelectEnv).2 := by
  refine ⟨rfl, ?_⟩
  intro h
  simp [vkNewFailSelectEnv, vkNew, select_physical_device, buildCandidates] at h

/-- C1 (amended): `Vk::new` propagates an error only from instance
creation (where no native resource exists yet) and from physical-device
selection (where the already created instance is retained, with no
destroy event); a queue-family-lookup failure or a native device-creation
failure aborts the process (panic) instead of returning an error. -/
theorem vkNew_error_paths (env : VkNewEnv) :
    (env.instanceOk = false → vkNew env = (.err .instanceCreation, [])) ∧
    (env.instanceOk = true → env.enumerateOk = true →
      ∀ e, select_physical_device env.devices get_required_device_extensions = .error e →
        vkNew env = (.err e, [VkEvent.createInstance 0]) ∧
          VkEvent.destroyInstance 0 ∉ (vkNew env).2) ∧
    (env.instanceOk = true → env.enumerateOk = false →
      vkNew env =
        (.panicked "physical devices should be available.", [VkEvent.createInstance 0])) ∧
    (env.instanceOk = true → env.enumerateOk = true →
      ∀ pd, select_physical_device env.devices get_required_device_extensions = .ok pd →
        find_queue_family_indices (env.queueFamiliesOf pd) = none →
          vkNew env =
            (.panicked "failed to find queue family that supports GRAPHICS, COMPUTE and PRESENT",
             [VkEvent.createInstance 0])) ∧
    (env.instanceOk = true → env.enumerateOk = true →
      ∀ pd, select_physical_device env.devices get_required_device_extensions = .ok pd →
        ∀ qfi, find_queue_family_indices (env.queueFamiliesOf pd) = some qfi →
          env.deviceOk = false →
            vkNew env = (.panicked "create_device successful.", [VkEvent.createInstance 0])) := by
  refine ⟨?_, ?_, ?_, ?_, ?_⟩
  · intro h1
    simp [vkNew, h1]
  · intro h1 h2 e hsel
    constructor
    · simp [vkNew, h1, h2, hsel]
    · simp [vkNew, h1, h2, hsel]
  · intro h1 h2
    simp [vkNew, h1, h2]
  · intro h1 h2 pd hsel hqf
    simp [vkNew, h1, h2, hsel, hqf]
  · intro h1 h2 pd hsel qfi hqf hdev
    simp [vkNew, h1, h2, hsel, hqf, hdev, create_device]

theorem vkNew_error_paths_witness :
    vkNew vkNewFailSelectEnv = (.err .noSuitableDevice, [VkEvent.createInstance 0]) ∧
      VkEvent.destroyInstance 0 ∉ (vkNew vkNewFailSelectEnv).2 :=
  (vkNew_error_paths vkNewFailSelectEnv).2.1 rfl rfl VkError.noSuitableDevice rfl

/-! ## C6: create_device failure behaviour -/

/-- C6: when the native device-creation call reports failure,
`create_device` does not return a recoverable error value: it panics with
`"create_device successful."` (the source wraps the native call in
`.expect(...)` inside `Ok(...)`, so its `anyhow::Result` error path is
unreachable), aborting the process. -/
theorem create_device_panics_on_native_failure (h : Nat) :
    create_device false h = (.panicked "create_device successful.", []) := rfl

/-! ## C8: swapchain bundle invariant -/

theorem createImageViews_ok (viewOk : Nat → Bool) (idx c : Nat) (images : List Nat)
    (vs : List Nat) (tr : List VkEvent) (c' : Nat)
    (h : createImageViews viewOk idx c images = (.ok vs, tr, c')) :
    vs.length = images.length ∧
      ∀ (i v img : Nat), vs[i]? = some v → images[i]? = some img →
        VkEvent.createImageView v img ∈ tr := by
  induction images generalizing idx c vs tr c' with
  | nil =>
    simp [createImageViews] at h
    obtain ⟨rfl, rfl, rfl⟩ := h
    simp
  | cons img rest ih =>
    rw [createImageViews] at h
    by_cases hvk : viewOk idx
    · rw [if_pos hvk] at h
      rcases hrec : createImageViews viewOk (idx + 1) (c + 1) rest with ⟨o, tr2, c2⟩
      rw [hrec] at h
      cases o with
      | ok vs2 =>
        simp only [Prod.mk.injEq] at h
        obtain ⟨ho, htr, hc⟩ := h
        obtain rfl : vs = c :: vs2 := by
          cases ho
          rfl
        subst htr
        subst hc
        obtain ⟨hlen, hidx⟩ := ih (idx + 1) (c + 1) vs2 tr2 _ hrec
        constructor
        · simp [hlen]
        · intro i v im hv him
          cases i with
          | zero =>
            simp only [List.getElem?_cons_zero] at hv him
            obtain rfl := Option.some.inj hv
            obtain rfl := Option.some.inj him
            exact List.mem_cons_self _ _
          | succ n =>
            simp only [List.getElem?_cons_succ] at hv him
            exact List.mem_cons_of_mem _ (hidx n v im hv him)
      | err e => simp at h
      | panicked m => simp at h
    · rw [if_neg hvk] at h
      simp at h

/-- C8: after every successful `create_swapchain` call the returned bundle
has as many image views as images, and the i-th image view was created
from the i-th image (the trace holds a `createImageView` event pairing
them). -/
theorem create_swapchain_views_match_images (env : SwapchainEnv) (c : Nat)
    (holder : SwapchainHolder) (tr : List VkEvent) (c' : Nat)
    (h : create_swapchain env c = (.ok holder, tr, c')) :
    holder.image_views.length = holder.images.length ∧
      ∀ (i v img : Nat), holder.image_views[i]? = some v → holder.images[i]? = some img →
        VkEvent.createImageView v img ∈ tr := by
  rw [create_swapchain] at h
  cases hb : env.swapchainOk with
  | false =>
    rw [hb] at h
    simp at h
  | true =>
    rw [hb] at h
    simp only [Bool.not_true] at h
    rw [if_neg (by simp)] at h
    cases himg : env.imagesResult with
    | none =>
      rw [himg] at h
      simp at h
    | some images =>
      simp only [himg] at h
      rcases hrec : createImageViews env.viewOk 0 (c + 1) images with ⟨o, tr2, c2⟩
      rw [hrec] at h
      cases o with
      | ok vs =>
        simp only [Prod.mk.injEq] at h
        obtain ⟨ho, htr, hc⟩ := h
        obtain rfl : holder = ⟨c, images, vs⟩ := by
          cases ho
          rfl
        subst htr
        subst hc
        obtain ⟨hlen, hidx⟩ := createImageViews_ok env.viewOk 0 (c + 1) images vs tr2 _ hrec
        refine ⟨hlen, ?_⟩
        intro i v im hv him
        exact List.mem_cons_of_mem _ (hidx i v im hv him)
      | err e => simp at h
      | panicked m => simp at h

/-- Swapchain environment used by witnesses: the swapchain succeeds and
yields two images, every view creation succeeds. -/
def witnessSwapEnv : SwapchainEnv :=
  { swapchainOk := true, imagesResult := some [10, 11], viewOk := fun _ => true }

theorem create_swapchain_views_match_images_witness :
    (SwapchainHolder.mk 5 [10, 11] [6, 7]).image_views.length =
        (SwapchainHolder.mk 5 [10, 11] [6, 7]).images.length ∧
      ∀ (i v img : Nat),
        (SwapchainHolder.mk 5 [10, 11] [6, 7]).image_views[i]? = some v →
          (SwapchainHolder.mk 5 [10, 11] [6, 7]).images[i]? = some img →
            VkEvent.createImageView v img ∈
              [VkEvent.createSwapchain 5, VkEvent.createImageView 6 10,
               VkEvent.createImageView 7 11] :=
  create_swapchain_views_match_images witnessSwapEnv 5 ⟨5, [10, 11], [6, 7]⟩
    [VkEvent.createSwapchain 5, VkEvent.createImageView 6 10, VkEvent.createImageView 7 11]
    8 rfl

/-! ## C3 and C9: swapchain recreation -/

/-- Replay step for the set of live swapchain handles: a create event adds
its handle, a destroy event removes it, every other event leaves the set
unchanged. -/
def swapStep (live : List Nat) : VkEvent → List Nat
  | VkEvent.createSwapchain h => live ++ [h]
  | VkEvent.destroySwapchain h => live.erase h
  | _ => live

/-- `boundedLive live tr` holds when, replaying `tr` from the live
swapchain set `live`, at most one swapchain is live at every intermediate
point (including before the first and after the last event). -/
def boundedLive (live : List Nat) : List VkEvent → Bool
  | [] => decide (live.length ≤ 1)
  | e :: rest => decide (live.length ≤ 1) && boundedLive (swapStep live e) rest

theorem boundedLive_destroyImageViews (views : List Nat) (live : List Nat)
    (tr : List VkEvent) :
    boundedLive live (views.map VkEvent.destroyImageView ++ tr) =
      (decide (live.length ≤ 1) && boundedLive live tr) := by
  induction views with
  | nil =>
    cases tr with
    | nil => simp [boundedLive]
    | cons e rest => simp [boundedLive, ← Bool.and_assoc, Bool.and_self]
  | cons v vs ih =>
    simp only [List.map_cons, List.cons_append, boundedLive]
    rw [show swapStep live (VkEvent.destroyImageView v) = live from rfl]
    simp only [List.append_eq]
    rw [ih]
    rw [← Bool.and_assoc, Bool.and_self]

theorem boundedLive_viewEvents (tr : List VkEvent)
    (hall : ∀ e ∈ tr, ∃ v img, e = VkEvent.createImageView v img) (live : List Nat) :
    boundedLive live tr = decide (live.length ≤ 1) := by
  induction tr with
  | nil => rfl
  | cons e rest ih =>
    obtain ⟨v, img, rfl⟩ := hall e (List.mem_cons_self _ _)
    rw [show boundedLive live (VkEvent.createImageView v img :: rest) =
        (decide (live.length ≤ 1) && boundedLive (swapStep live (VkEvent.createImageView v img)) rest)
      from rfl]
    rw [show swapStep live (VkEvent.createImageView v img) = live from rfl]
    rw [ih (fun e he => hall e (List.mem_cons_of_mem _ he))]
    rw [Bool.and_self]

theorem createImageViews_events (viewOk : Nat → Bool) (idx c : Nat) (images : List Nat) :
    ∀ e ∈ (createImageViews viewOk idx c images).2.1,
      ∃ v img, e = VkEvent.createImageView v img := by
  induction images generalizing idx c with
  | nil => simp [createImageViews]
  | cons img rest ih =>
    rw [createImageViews]
    by_cases hvk : viewOk idx
    · rw [if_pos hvk]
      rcases hrec : createImageViews viewOk (idx + 1) (c + 1) rest with ⟨o, tr2, c2⟩
      have ih' : ∀ e ∈ tr2, ∃ v img, e = VkEvent.createImageView v img := by
        intro e he
        apply ih (idx + 1) (c + 1)
        rw [hrec]
        exact he
      cases o with
      | ok vs =>
        intro e he
        simp only [List.mem_cons] at he
        rcases he with rfl | he
        · exact ⟨c, img, rfl⟩
        · exact ih' e he
      | err er =>
        intro e he
        simp only [List.mem_cons] at he
        rcases he with rfl | he
        · exact ⟨c, img, rfl⟩
        · exact ih' e he
      | panicked m =>
        intro e he
        simp only [List.mem_cons] at he
        rcases he with rfl | he
        · exact ⟨c, img, rfl⟩
        · exact ih' e he
    · rw [if_neg hvk]
      simp

theorem create_swapchain_trace_creates_only (env : SwapchainEnv) (c : Nat) :
    ∀ e ∈ (create_swapchain env c).2.1,
      (∃ h2, e = VkEvent.createSwapchain h2) ∨ ∃ v img, e = VkEvent.createImageView v img := by
  cases hb : env.swapchainOk with
  | false => simp [create_swapchain, hb]
  | true =>
    cases himg : env.imagesResult with
    | none =>
      simp only [create_swapchain, hb, himg, Bool.not_true, Bool.false_eq_true, if_false]
      intro e he
      simp only [List.mem_singleton] at he
      exact Or.inl ⟨c, he⟩
    | some images =>
      rcases hrec : createImageViews env.viewOk 0 (c + 1) images with ⟨o, tr2, c2⟩
      have hview : ∀ e ∈ tr2, ∃ v img, e = VkEvent.createImageView v img := by
        intro e he
        apply createImageViews_events env.viewOk 0 (c + 1) images
        rw [hrec]
        exact he
      simp only [create_swapchain, hb, himg, hrec, Bool.not_true, Bool.false_eq_true, if_false]
      cases o with
      | ok vs =>
        intro e he
        simp only [List.mem_cons] at he
        rcases he with rfl | he
        · exact Or.inl ⟨c, rfl⟩
        · exact Or.inr (hview e he)
      | err er =>
        intro e he
        simp only [List.mem_cons] at he
        rcases he with rfl | he
        · exact Or.inl ⟨c, rfl⟩
        · exact Or.inr (hview e he)
      | panicked m =>
        intro e he
        simp only [List.mem_cons] at he
        rcases he with rfl | he
        · exact Or.inl ⟨c, rfl⟩
        · exact Or.inr (hview e he)

theorem boundedLive_nil_create_swapchain_trace (env : SwapchainEnv) (c : Nat) :
    boundedLive [] (create_swapchain env c).2.1 = true := by
  cases hb : env.swapchainOk with
  | false => simp [create_swapchain, hb, boundedLive]
  | true =>
    cases himg : env.imagesResult with
    | none =>
      simp only [create_swapchain, hb, himg, Bool.not_true, Bool.false_eq_true, if_false]
      rfl
    | some images =>
      rcases hrec : createImageViews env.viewOk 0 (c + 1) images with ⟨o, tr2, c2⟩
      have hview : ∀ e ∈ tr2, ∃ v img, e = VkEvent.createImageView v img := by
        intro e he
        apply createImageViews_events env.viewOk 0 (c + 1) images
        rw [hrec]
        exact he
      simp only [create_swapchain, hb, himg, hrec, Bool.not_true, Bool.false_eq_true, if_false]
      cases o <;>
        simp [boundedLive, swapStep, boundedLive_viewEvents tr2 hview]

theorem recreate_swapchain_trace (cfg : AppCfg) (env : SwapchainEnv) (ctx : AppContext)
    (c : Nat) (old : SwapchainHolder) (hold : ctx.swapchain = some old) :
    (recreate_swapchain cfg env ctx c).2.2.1 =
      old.destroy ++
        (if cfg.formatOk && cfg.colorSpaceOk && cfg.minImageCountOk
         then (create_swapchain env c).2.1 else []) := by
  by_cases hc : (cfg.formatOk && cfg.colorSpaceOk && cfg.minImageCountOk) = true
  · rw [if_pos hc]
    rcases hcr : create_swapchain env c with ⟨o, tr, c2⟩
    cases o <;> simp [recreate_swapchain, hold, hc, hcr]
  · rw [if_neg hc]
    simp [recreate_swapchain, hold, hc]

/-- C3: when a previous bundle exists, `recreate_swapchain` fully destroys
it — every image view, then the swapchain handle — before the replacement
is constructed (its trace is the old bundle's destroy sequence followed
only by creation events), and replaying the trace shows that at most one
swapchain is live at every intermediate point: no two live bundles ever
coexist for the surface. -/
theorem recreate_swapchain_destroys_old_first (cfg : AppCfg) (env : SwapchainEnv)
    (ctx : AppContext) (c : Nat) (old : SwapchainHolder)
    (hold : ctx.swapchain = some old) :
    (∃ rest, (recreate_swapchain cfg env ctx c).2.2.1 = old.destroy ++ rest ∧
      ∀ e ∈ rest, (∃ h2, e = VkEvent.createSwapchain h2) ∨
        ∃ v img, e = VkEvent.createImageView v img) ∧
    boundedLive [old.swapchain] (recreate_swapchain cfg env ctx c).2.2.1 = true := by
  have htr := recreate_swapchain_trace cfg env ctx c old hold
  by_cases hc : (cfg.formatOk && cfg.colorSpaceOk && cfg.minImageCountOk) = true
  · rw [if_pos hc] at htr
    refine ⟨⟨_, htr, create_swapchain_trace_creates_only env c⟩, ?_⟩
    rw [htr]
    unfold SwapchainHolder.destroy
    rw [List.append_assoc, boundedLive_destroyImageViews, List.singleton_append]
    rw [show boundedLive [old.swapchain]
        (VkEvent.destroySwapchain old.swapchain :: (create_swapchain env c).2.1) =
          (decide (([old.swapchain] : List Nat).length ≤ 1) &&
            boundedLive (swapStep [old.swapchain] (VkEvent.destroySwapchain old.swapchain))
              ((create_swapchain env c).2.1)) from rfl]
    rw [show swapStep [old.swapchain] (VkEvent.destroySwapchain old.swapchain) =
        ([] : List Nat) from by simp [swapStep]]
    rw [boundedLive_nil_create_swapchain_trace]
    simp
  · rw [if_neg hc] at htr
    rw [List.append_nil] at htr
    refine ⟨⟨[], by rw [htr, List.append_nil], by simp⟩, ?_⟩
    rw [htr]
    unfold SwapchainHolder.destroy
    rw [boundedLive_destroyImageViews]
    simp [boundedLive, swapStep]

/-- Concrete `Vk` context for witnesses. -/
def witnessVk : Vk := ⟨0, ⟨9, .otherType, 0, []⟩, 0, 1⟩

/-- Concrete previous swapchain bundle for witnesses: swapchain handle 3,
one image 4 with its view 5. -/
def witnessOld : SwapchainHolder := ⟨3, [4], [5]⟩

/-- Concrete application context holding `witnessOld` for witnesses. -/
def witnessCtx : AppContext := ⟨2, witnessVk, some witnessOld⟩

/-- Application configuration whose getters all succeed. -/
def witnessCfg : AppCfg := ⟨true, true, true⟩

theorem recreate_swapchain_destroys_old_first_witness :
    (∃ rest, (recreate_swapchain witnessCfg witnessSwapEnv witnessCtx 6).2.2.1 =
        witnessOld.destroy ++ rest ∧
      ∀ e ∈ rest, (∃ h2, e = VkEvent.createSwapchain h2) ∨
        ∃ v img, e = VkEvent.createImageView v img) ∧
    boundedLive [witnessOld.swapchain]
        (recreate_swapchain witnessCfg witnessSwapEnv witnessCtx 6).2.2.1 = true :=
  recreate_swapchain_destroys_old_first witnessCfg witnessSwapEnv witnessCtx 6
    witnessOld rfl

/-- C9: when a previous bundle exists and `create_swapchain` fails,
`recreate_swapchain` propagates the error with the context's swapchain
field already `None` and the old bundle irrevocably destroyed (its
swapchain and every view destroyed in the trace) — the prior bundle is
not preserved on error — and as a consequence the combined trace of the
failed recreation followed by context teardown destroys the old swapchain
handle and each old view handle exactly once (no double destroy). -/
theorem recreate_swapchain_failure_drops_old (cfg : AppCfg) (env : SwapchainEnv)
    (ctx : AppContext) (c : Nat) (old : SwapchainHolder) (e : VkError)
    (tr2 : List VkEvent) (c2 : Nat)
    (hold : ctx.swapchain = some old)
    (hcfg : (cfg.formatOk && cfg.colorSpaceOk && cfg.minImageCountOk) = true)
    (hfail : create_swapchain env c = (.err e, tr2, c2))
    (hnodup : old.image_views.Nodup) :
    recreate_swapchain cfg env ctx c =
      (.err e, { ctx with swapchain := none }, old.destroy ++ tr2, c2) ∧
    VkEvent.destroySwapchain old.swapchain ∈ old.destroy ++ tr2 ∧
    (∀ v ∈ old.image_views, VkEvent.destroyImageView v ∈ old.destroy ++ tr2) ∧
    ((old.destroy ++ tr2) ++ appContextDrop { ctx with swapchain := none }).count
        (VkEvent.destroySwapchain old.swapchain) = 1 ∧
    (∀ v ∈ old.image_views,
      ((old.destroy ++ tr2) ++ appContextDrop { ctx with swapchain := none }).count
          (VkEvent.destroyImageView v) = 1) := by
  have hcre : ∀ x ∈ tr2, (∃ h2, x = VkEvent.createSwapchain h2) ∨
      ∃ v img, x = VkEvent.createImageView v img := by
    intro x hx
    apply create_swapchain_trace_creates_only env c
    rw [hfail]
    exact hx
  have htr2_destroy_zero : ∀ x : VkEvent,
      (∀ h2, x ≠ VkEvent.createSwapchain h2) →
      (∀ v img, x ≠ VkEvent.createImageView v img) → tr2.count x = 0 := by
    intro x hx1 hx2
    rw [List.count_eq_zero]
    intro hmem
    rcases hcre x hmem with ⟨h2, rfl⟩ | ⟨v, img, rfl⟩
    · exact hx1 h2 rfl
    · exact hx2 v img rfl
  have hdrop : appContextDrop { ctx with swapchain := none } =
      [VkEvent.destroySurface ctx.main_surface,
       VkEvent.destroyDevice ctx.vk.deviceH,
       VkEvent.dropPhysicalDevice,
       VkEvent.destroyInstance ctx.vk.instanceH,
       VkEvent.dropEntry] := rfl
  have hmap_zero : ∀ x : VkEvent, (∀ v, x ≠ VkEvent.destroyImageView v) →
      (old.image_views.map VkEvent.destroyImageView).count x = 0 := by
    intro x hx
    rw [List.count_eq_zero]
    intro hmem
    obtain ⟨v, _, hv⟩ := List.mem_map.mp hmem
    exact hx v hv.symm
  refine ⟨?_, ?_, ?_, ?_, ?_⟩
  · simp [recreate_swapchain, hold, hcfg, hfail]
  · unfold SwapchainHolder.destroy
    simp
  · intro v hv
    unfold SwapchainHolder.destroy
    simp only [List.append_assoc, List.mem_append]
    left
    exact List.mem_map_of_mem _ hv
  · rw [List.count_append, List.count_append, hdrop]
    unfold SwapchainHolder.destroy
    rw [List.count_append]
    rw [hmap_zero _ (by intro v h; cases h)]
    rw [htr2_destroy_zero _ (by intro h2 h; cases h) (by intro v img h; cases h)]
    simp [List.count_cons]
  · intro v hv
    rw [List.count_append, List.count_append, hdrop]
    unfold SwapchainHolder.destroy
    rw [List.count_append]
    rw [List.count_map_of_injective _ VkEvent.destroyImageView
      (fun a b hab => by cases hab; rfl) v]
    rw [List.count_eq_one_of_mem hnodup hv]
    rw [htr2_destroy_zero _ (by intro h2 h; cases h) (by intro w img h; cases h)]
    simp [List.count_cons]

/-- Swapchain environment whose native swapchain creation fails. -/
def witnessFailSwapEnv : SwapchainEnv :=
  { swapchainOk := false, imagesResult := some [], viewOk := fun _ => true }

theorem recreate_swapchain_failure_drops_old_witness :
    recreate_swapchain witnessCfg witnessFailSwapEnv witnessCtx 6 =
      (.err .swapchainCreation, { witnessCtx with swapchain := none },
        witnessOld.destroy ++ [], 6) ∧
    VkEvent.destroySwapchain witnessOld.swapchain ∈ witnessOld.destroy ++ [] ∧
    (∀ v ∈ witnessOld.image_views,
      VkEvent.destroyImageView v ∈ witnessOld.destroy ++ []) ∧
    ((witnessOld.destroy ++ []) ++
        appContextDrop { witnessCtx with swapchain := none }).count
        (VkEvent.destroySwapchain witnessOld.swapchain) = 1 ∧
    (∀ v ∈ witnessOld.image_views,
      ((witnessOld.destroy ++ []) ++
          appContextDrop { witnessCtx with swapchain := none }).count
          (VkEvent.destroyImageView v) = 1) :=
  recreate_swapchain_failure_drops_old witnessCfg witnessFailSwapEnv witnessCtx 6
    witnessOld .swapchainCreation [] 6 rfl rfl rfl (by decide)

/-! ## C7 and C10: the frame loop's event handling -/

theorem processEvents_dispatched_subset (auto : Bool) (events : List WEvent) :
    ∀ e ∈ (processEvents auto events).2.1, e ∈ events := by
  induction events with
  | nil => simp [processEvents]
  | cons e rest ih =>
    by_cases hesc : (auto && isEscapePress e) = true
    · simp [processEvents, hesc]
    · cases e with
      | framebufferSize w h =>
        simp only [processEvents, hesc, Bool.false_eq_true, if_false]
        intro x hx
        exact List.mem_cons_of_mem _ (ih x hx)
      | key k s a m =>
        simp only [processEvents, hesc, Bool.false_eq_true, if_false]
        intro x hx
        rcases List.mem_cons.mp hx with rfl | hx
        · exact List.mem_cons_self _ _
        · exact List.mem_cons_of_mem _ (ih x hx)
      | otherEvent n =>
        simp only [processEvents, hesc, Bool.false_eq_true, if_false]
        intro x hx
        rcases List.mem_cons.mp hx with rfl | hx
        · exact List.mem_cons_self _ _
        · exact List.mem_cons_of_mem _ (ih x hx)

theorem processEvents_until_escape (sc : Int) (mods : Nat) (post : List WEvent)
    (pre : List WEvent) (hpre : ∀ e ∈ pre, isEscapePress e = false) :
    processEvents true (pre ++ WEvent.key .escape sc .press mods :: post) =
      (true, (processEvents true pre).2.1, (processEvents true pre).2.2) := by
  induction pre with
  | nil => simp [processEvents, isEscapePress]
  | cons e pre' ih =>
    have he : isEscapePress e = false := hpre e (List.mem_cons_self _ _)
    have hpre' : ∀ x ∈ pre', isEscapePress x = false :=
      fun x hx => hpre x (List.mem_cons_of_mem _ hx)
    have hrec := ih hpre'
    cases e with
    | framebufferSize w h =>
      simp only [List.cons_append, processEvents, he, Bool.and_false, Bool.false_eq_true,
        if_false, List.append_eq, hrec]
    | key k s a m =>
      simp only [List.cons_append, processEvents, he, Bool.and_false, Bool.false_eq_true,
        if_false, List.append_eq, hrec]
    | otherEvent n =>
      simp only [List.cons_append, processEvents, he, Bool.and_false, Bool.false_eq_true,
        if_false, List.append_eq, hrec]

/-- C7: with auto-close enabled, when an Escape key press is drained the
loop sets the close flag, stops processing the rest of that tick's events
(the dispatched events and recreation count are exactly those of the
events before the Escape), never dispatches the Escape press to the
application's event callback, and the frame loop executes no further
iteration (exactly this one frame runs, whatever later ticks were
scheduled). -/
theorem run_escape_press_closes (sc : Int) (mods : Nat) (pre post : List WEvent)
    (qs : List (List WEvent)) (hpre : ∀ e ∈ pre, isEscapePress e = false) :
    processEvents true (pre ++ WEvent.key .escape sc .press mods :: post) =
      (true, (processEvents true pre).2.1, (processEvents true pre).2.2) ∧
    WEvent.key .escape sc .press mods ∉
      (processEvents true (pre ++ WEvent.key .escape sc .press mods :: post)).2.1 ∧
    runLoop true ((pre ++ WEvent.key .escape sc .press mods :: post) :: qs) =
      (1, (processEvents true pre).2.1) := by
  have hmain := processEvents_until_escape sc mods post pre hpre
  refine ⟨hmain, ?_, ?_⟩
  · rw [hmain]
    intro hmem
    have := processEvents_dispatched_subset true pre _ hmem
    have := hpre _ this
    simp [isEscapePress] at this
  · rw [runLoop, hmain]
    simp

theorem run_escape_press_closes_witness :
    processEvents true
        ([WEvent.otherEvent 7] ++ WEvent.key .escape 1 .press 0 :: [WEvent.otherEvent 9]) =
      (true, (processEvents true [WEvent.otherEvent 7]).2.1,
        (processEvents true [WEvent.otherEvent 7]).2.2) ∧
    WEvent.key .escape 1 .press 0 ∉
      (processEvents true
        ([WEvent.otherEvent 7] ++ WEvent.key .escape 1 .press 0 :: [WEvent.otherEvent 9])).2.1 ∧
    runLoop true
        (([WEvent.otherEvent 7] ++ WEvent.key .escape 1 .press 0 :: [WEvent.otherEvent 9]) ::
          [[WEvent.otherEvent 11]]) =
      (1, (processEvents true [WEvent.otherEvent 7]).2.1) :=
  run_escape_press_closes 1 0 [WEvent.otherEvent 7] [WEvent.otherEvent 9]
    [[WEvent.otherEvent 11]] (by decide)

/-- C10: the auto-close check matches only an Escape press: an Escape key
event with repeat or release action (auto-close on), and an Escape press
with auto-close disabled, are dispatched to the application's event
callback and do not set the close flag. -/
theorem escape_non_press_dispatched (sc : Int) (mods : Nat) (a : GAction)
    (rest : List WEvent) (ha : a ≠ GAction.press) :
    processEvents true (WEvent.key .escape sc a mods :: rest) =
      ((processEvents true rest).1,
        WEvent.key .escape sc a mods :: (processEvents true rest).2.1,
        (processEvents true rest).2.2) ∧
    processEvents false (WEvent.key .escape sc .press mods :: rest) =
      ((processEvents false rest).1,
        WEvent.key .escape sc .press mods :: (processEvents false rest).2.1,
        (processEvents false rest).2.2) := by
  constructor
  · cases a with
    | press => exact absurd rfl ha
    | release => simp [processEvents, isEscapePress]
    | keyRepeat => simp [processEvents, isEscapePress]
  · simp [processEvents]

theorem escape_non_press_dispatched_witness :
    processEvents true (WEvent.key .escape 1 .release 0 :: [WEvent.otherEvent 9]) =
      ((processEvents true [WEvent.otherEvent 9]).1,
        WEvent.key .escape 1 .release 0 :: (processEvents true [WEvent.otherEvent 9]).2.1,
        (processEvents true [WEvent.otherEvent 9]).2.2) ∧
    processEvents false (WEvent.key .escape 1 .press 0 :: [WEvent.otherEvent 9]) =
      ((processEvents false [WEvent.otherEvent 9]).1,
        WEvent.key .escape 1 .press 0 ::
          (processEvents false [WEvent.otherEvent 9]).2.1,
        (processEvents false [WEvent.otherEvent 9]).2.2) :=
  escape_non_press_dispatched 1 0 GAction.release [WEvent.otherEvent 9] (by decide)
